import Mathlib

/-!
Verification of the exhaustible-pool recommender, name corrector and
weather cache of the WeatherJukeboxAPI backend.

The Python sources are shallowly embedded as Lean functions:

* `src/services/music_service.py` — the module-level mutable pair
  `_all_available_videos` / `_unplayed_videos` (plus the per-object
  `played` attribute) becomes the record `MusicState`; the per-object
  boolean attribute `played` is represented by membership in the
  `playedSet` field (a video's flag is `True` iff it is in that list).
  Videos are identified by their load position (`Nat` index) paired with
  their fields, mirroring Python object identity.  The third-party
  `fuzz.partial_ratio` scorer is taken as a parameter
  `pr : String → String → Nat`.  The recursive retry-on-exhaustion
  control flow is embedded with explicit fuel: a result of `none` at the
  outer `Option` layer means the recursion did not terminate within the
  given fuel, and `some (r, s)` means the call returned `r` (where the
  inner `none` is Python's `None`, i.e. NoMatch) leaving state `s`.
  Loading from disk inside a serve call is modelled as a no-op (the
  guard `if not _all_available_videos` then simply answers with the
  "list empty" recommendation), which is the behaviour of the source
  once start-up loading has happened or failed.
* `src/services/weather_service.py` — the globals `_location_names` and
  `_weather_data_cache` become the record `WeatherState`; `datetime.now`
  is a `Nat` parameter (seconds); the outbound HTTP fetch plus the
  payload parsing of lines 113–131 is a `FetchOutcome` parameter whose
  `ok` constructor carries exactly the parsed pieces the source extracts
  (description, forecast start month/day/hour, PoP string), and whose
  other constructors are the malformed-payload branch and the two
  `except` branches.  The alias dictionary `settings.MANUAL_CORRECTIONS`
  and the keyword map `settings.WEATHER_KEYWORDS_MAP` live in
  `src/config.py`, which is not part of the provided sources, so they
  are passed as parameters (with a concrete alias table modelled from
  the specification where a concrete table is required).
-/

/-! ## Music service: data model (src/models.py, src/services/music_service.py) -/

/-- The fields of `VideoData` in `src/models.py` apart from the mutable
`played` flag (which is tracked in `MusicState.playedSet`). -/
structure VideoFields where
  url : String
  description : String
  matched_weather_descriptions : List String
deriving DecidableEq, Repr

/-- A loaded video: its position in the loaded list (standing for Python
object identity) together with its fields. -/
structure Video where
  idx : Nat
  data : VideoFields
deriving DecidableEq, Repr

/-- The response model `MusicRecommendation` of `src/models.py`. -/
structure MusicRecommendation where
  url : Option String
  description : Option String
  message : String
deriving DecidableEq, Repr

/-- The mutable module state of `src/services/music_service.py`:
`all` is `_all_available_videos`, `unplayed` is `_unplayed_videos`, and
`playedSet` lists the videos whose `played` attribute is `True`. -/
structure MusicState where
  all : List Video
  playedSet : List Video
  unplayed : List Video
deriving DecidableEq, Repr

/-- The `played` attribute of a video in a given state. -/
def playedFlag (s : MusicState) (v : Video) : Bool :=
  decide (v ∈ s.playedSet)

/-- The reset performed when `_unplayed_videos` is exhausted
(music_service.py lines 67–70 and 118–121): every loaded video's
`played` flag is set to `False` and `_unplayed_videos` is refilled from
`_all_available_videos`. -/
def refillState (s : MusicState) : MusicState :=
  { all := s.all
    playedSet := s.playedSet.filter (fun v => decide (v ∉ s.all))
    unplayed := s.all }

/-- `_load_videos_data` (music_service.py lines 40–43): the JSON rows
(fields plus initial `played` flag) become the indexed video list, and
`_unplayed_videos` is the sublist of videos whose flag is off. -/
def loadVideos (raw : List (VideoFields × Bool)) : MusicState :=
  let tagged := raw.enum
  let allVideos : List Video := tagged.map (fun p => Video.mk p.1 p.2.1)
  let playedVideos : List Video :=
    (tagged.filter (fun p => p.2.2)).map (fun p => Video.mk p.1 p.2.1)
  { all := allVideos
    playedSet := playedVideos
    unplayed := allVideos.filter (fun v => decide (v ∉ playedVideos)) }

/-- The recommendation returned when the video list is not loaded or
empty (music_service.py lines 62–64 and 113–115). -/
def musicListEmptyRec : MusicRecommendation :=
  { url := none, description := none, message := "音樂清單尚未初始化或為空。" }

/-- The score of one video against a query (music_service.py lines
85–87) as a total function: the maximum of `fuzz.partial_ratio`
(parameter `pr`) over the video's lower-cased tags, with the query
lower-cased.  On a non-empty tag list this equals Python's `max` (scores
are naturals, so folding from 0 is harmless); on an empty tag list the
source instead raises an unhandled `ValueError` — that fault is modelled
by `videoScoreChecked`, and this total variant is only relied on where
the two agree. -/
def videoScore (pr : String → String → Nat) (q : String) (v : Video) : Nat :=
  (v.data.matched_weather_descriptions.map (fun d => pr q.toLower d.toLower)).foldl Nat.max 0

/-- The per-video score exactly as the source computes it
(music_service.py lines 85–87): Python's `max` over the generated
scores, which raises `ValueError` on a video with an empty tag list —
modelled as `none`; on a non-empty tag list the maximum is folded from
the first tag's score. -/
def videoScoreChecked (pr : String → String → Nat) (q : String) (v : Video) : Option Nat :=
  match v.data.matched_weather_descriptions with
  | [] => none
  | d :: ds =>
    some ((ds.map (fun t => pr q.toLower t.toLower)).foldl Nat.max (pr q.toLower d.toLower))

/-- The best-match scan of music_service.py lines 75–90: fold over the
unplayed list with `best_match = None`, `best_score = -1`, replacing the
accumulator exactly when a video's score is strictly greater. -/
def selectBest (pr : String → String → Nat) (q : String) (l : List Video) :
    Option Video × Int :=
  l.foldl
    (fun acc v =>
      if (videoScore pr q v : Int) > acc.2 then (some v, (videoScore pr q v : Int)) else acc)
    (none, -1)

/-- The recommendation built for a successful match
(music_service.py lines 96–100). -/
def matchRecOf (q : String) (v : Video) : MusicRecommendation :=
  { url := some v.data.url
    description := some v.data.description
    message := "已為您推薦與「" ++ q ++ "」相關的音樂：" ++ v.data.description }

/-- `find_and_recommend_music_by_desc` (music_service.py lines 54–102),
with the self-recursion on exhaustion made explicit through fuel:
`none` means the recursion did not finish within the fuel, and
`some (r, s)` is the returned value (inner `none` = Python `None`,
i.e. NoMatch) with the updated module state. -/
def findAndRecommendFuel (pr : String → String → Nat) (q : String) :
    Nat → MusicState → Option (Option MusicRecommendation × MusicState)
  | 0, _ => none
  | fuel + 1, s =>
    match s.all with
    | [] => some (some musicListEmptyRec, s)
    | _ :: _ =>
      match s.unplayed with
      | [] => findAndRecommendFuel pr q fuel (refillState s)
      | _ :: _ =>
        match selectBest pr q s.unplayed with
        | (some best, bestScore) =>
          if 70 ≤ bestScore then
            some (some (matchRecOf q best),
              { all := s.all
                playedSet := best :: s.playedSet
                unplayed := s.unplayed.erase best })
          else some (none, s)
        | (none, _) => some (none, s)

/-- The observable outcome of one `find_and_recommend_music_by_desc`
call: a normal return (Python value, `none` being NoMatch) with the
resulting module state, or the unhandled `ValueError` that `max()`
raises on a tagless video, with the module state at the moment of the
raise (the raise happens inside the scan, before any flag or list
mutation of that scan — but after a refill, if one happened). -/
inductive ServeOutcome where
  | returns (r : Option MusicRecommendation) (t : MusicState)
  | valueError (t : MusicState)
deriving DecidableEq, Repr

/-- The best-match scan of music_service.py lines 75–90 with the
`ValueError` path modelled: videos are scanned in list order and the
scan aborts (`none`) at the first video whose tag list is empty, exactly
where Python's `max()` raises. -/
def selectBestChecked (pr : String → String → Nat) (q : String) :
    List Video → (Option Video × Int) → Option (Option Video × Int)
  | [], acc => some acc
  | v :: vs, acc =>
    match videoScoreChecked pr q v with
    | none => none
    | some sc =>
      selectBestChecked pr q vs (if (sc : Int) > acc.2 then (some v, (sc : Int)) else acc)

/-- `find_and_recommend_music_by_desc` (music_service.py lines 54–102)
with the `ValueError` fault path made explicit; apart from routing the
scan through `selectBestChecked`, identical to `findAndRecommendFuel`
(to which it agrees whenever every unplayed video has at least one
tag). -/
def findAndRecommendChecked (pr : String → String → Nat) (q : String) :
    Nat → MusicState → Option ServeOutcome
  | 0, _ => none
  | fuel + 1, s =>
    match s.all with
    | [] => some (.returns (some musicListEmptyRec) s)
    | _ :: _ =>
      match s.unplayed with
      | [] => findAndRecommendChecked pr q fuel (refillState s)
      | _ :: _ =>
        match selectBestChecked pr q s.unplayed (none, -1) with
        | none => some (.valueError s)
        | some (some best, bestScore) =>
          if 70 ≤ bestScore then
            some (.returns (some (matchRecOf q best))
              { all := s.all
                playedSet := best :: s.playedSet
                unplayed := s.unplayed.erase best })
          else some (.returns none s)
        | some (none, _) => some (.returns none s)

/-- The recommendation built for a random pick
(music_service.py lines 130–134). -/
def randomRecOf (v : Video) : MusicRecommendation :=
  { url := some v.data.url
    description := some v.data.description
    message := "已為您隨機推薦了一首音樂：" ++ v.data.description }

/-- The serving step of `get_random_music_recommendation`
(music_service.py lines 126–134) on a non-empty unplayed list
`v :: vs`: `random.choice` is modelled by an oracle index `k` taken
modulo the list length (every element is a possible pick), the chosen
video's flag is set and it is removed from the unplayed list. -/
def serveRandomCore (k : Nat) (allVideos playedVideos : List Video)
    (v : Video) (vs : List Video) : Option MusicRecommendation × MusicState :=
  let l := v :: vs
  let chosen := l.get ⟨k % l.length, Nat.mod_lt _ (Nat.succ_pos _)⟩
  (some (randomRecOf chosen),
    { all := allVideos, playedSet := chosen :: playedVideos, unplayed := l.erase chosen })

/-- `get_random_music_recommendation` (music_service.py lines 105–135),
fueled exactly like `findAndRecommendFuel`; `k` is the random oracle for
the single pick the call performs. -/
def getRandomMusicFuel (k : Nat) :
    Nat → MusicState → Option (Option MusicRecommendation × MusicState)
  | 0, _ => none
  | fuel + 1, s =>
    match s.all with
    | [] => some (some musicListEmptyRec, s)
    | _ :: _ =>
      match s.unplayed with
      | [] => getRandomMusicFuel k fuel (refillState s)
      | v :: vs => some (serveRandomCore k s.all s.playedSet v vs)

/-- The non-recursive serve that §4.3/§9 of the specification state to be
equivalent to the source's refill-then-recurse control flow: written
from the spec's words "if remaining is empty at the start of a serve
call, refill remaining from universe, then proceed". -/
def getRandomMusicIterSpec (k : Nat) (s : MusicState) :
    Option MusicRecommendation × MusicState :=
  match s.all with
  | [] => (some musicListEmptyRec, s)
  | _ :: _ =>
    let s1 := match s.unplayed with
      | [] => refillState s
      | _ :: _ => s
    match s1.unplayed with
    | [] => (none, s1)
    | v :: vs => serveRandomCore k s1.all s1.playedSet v vs

/-- A sequence of `get_random_music_recommendation` calls, one oracle
value per call; each call is run with fuel 2 (enough for the single
refill retry).  A fuel exhaustion (impossible for loaded states) stops
the run. -/
def runRandom (ks : List Nat) (s : MusicState) :
    List (Option MusicRecommendation) × MusicState :=
  match ks with
  | [] => ([], s)
  | k :: ks' =>
    match getRandomMusicFuel k 2 s with
    | none => ([], s)
    | some (r, s') =>
      let p := runRandom ks' s'
      (r :: p.1, p.2)

/-- The invariant of claim C10, strengthened with the duplicate-freeness
that Python object identity provides (each loaded video is a distinct
object): the unplayed list holds exactly the loaded videos whose
`played` flag is off, and is a duplicate-free sublist of the universe. -/
def MusicInvariant (s : MusicState) : Prop :=
  s.all.Nodup ∧ s.unplayed.Nodup ∧ (∀ v ∈ s.unplayed, v ∈ s.all) ∧
    (∀ v ∈ s.all, (v ∈ s.unplayed ↔ playedFlag s v = false))

instance (s : MusicState) : Decidable (MusicInvariant s) := by
  unfold MusicInvariant; infer_instance

example :
    findAndRecommendFuel (fun _ _ => 0) "晴" 2
      ⟨[⟨0, "u", "d", ["t"]⟩], [⟨0, "u", "d", ["t"]⟩], []⟩ =
      some (none, ⟨[⟨0, "u", "d", ["t"]⟩], [], [⟨0, "u", "d", ["t"]⟩]⟩) := by
  decide

example :
    getRandomMusicFuel 3 2 ⟨[⟨0, "u", "d", ["t"]⟩, ⟨1, "u2", "d2", ["t2"]⟩], [],
        [⟨0, "u", "d", ["t"]⟩, ⟨1, "u2", "d2", ["t2"]⟩]⟩ =
      some (some (randomRecOf ⟨1, "u2", "d2", ["t2"]⟩),
        ⟨[⟨0, "u", "d", ["t"]⟩, ⟨1, "u2", "d2", ["t2"]⟩], [⟨1, "u2", "d2", ["t2"]⟩],
          [⟨0, "u", "d", ["t"]⟩]⟩) := by
  decide

example : MusicInvariant (loadVideos [(⟨"u", "d", ["t"]⟩, false), (⟨"u2", "d2", ["t2"]⟩, true)]) := by
  decide

/-! ## Helper lemmas about the best-so-far fold -/

/-- The shape shared by the best-so-far scans of the source (`best_match`
/ `best_score` in music_service.py, `process.extractOne` in
weather_service.py): replace the accumulator exactly when an element
scores strictly higher. -/
def bestFold {α : Type} (score : α → Int) (acc : Option α × Int) (l : List α) :
    Option α × Int :=
  l.foldl (fun a v => if score v > a.2 then (some v, score v) else a) acc

lemma bestFold_cons {α : Type} (score : α → Int) (acc : Option α × Int) (v : α) (l : List α) :
    bestFold score acc (v :: l) =
      bestFold score (if score v > acc.2 then (some v, score v) else acc) l := rfl

lemma bestFold_le {α : Type} (score : α → Int) :
    ∀ (l : List α) (acc : Option α × Int), acc.2 ≤ (bestFold score acc l).2
  | [], acc => le_refl _
  | v :: l, acc => by
    rw [bestFold_cons]
    refine le_trans ?_ (bestFold_le score l _)
    by_cases hv : score v > acc.2
    · rw [if_pos hv]; exact le_of_lt hv
    · rw [if_neg hv]

lemma bestFold_ge_all {α : Type} (score : α → Int) :
    ∀ (l : List α) (acc : Option α × Int), ∀ v ∈ l, score v ≤ (bestFold score acc l).2
  | v :: l, acc, u, hu => by
    rw [bestFold_cons]
    rcases List.mem_cons.mp hu with rfl | hu
    · refine le_trans ?_ (bestFold_le score l _)
      by_cases hv : score u > acc.2
      · rw [if_pos hv]
      · rw [if_neg hv]; exact not_lt.mp hv
    · exact bestFold_ge_all score l _ u hu

lemma bestFold_shape {α : Type} (score : α → Int) :
    ∀ (l : List α) (acc : Option α × Int),
      bestFold score acc l = acc ∨ ∃ b ∈ l, bestFold score acc l = (some b, score b)
  | [], acc => Or.inl rfl
  | v :: l, acc => by
    rw [bestFold_cons]
    by_cases hv : score v > acc.2
    · rw [if_pos hv]
      rcases bestFold_shape score l (some v, score v) with h | ⟨b, hb, h⟩
      · exact Or.inr ⟨v, List.mem_cons_self _ _, h⟩
      · exact Or.inr ⟨b, List.mem_cons_of_mem _ hb, h⟩
    · rw [if_neg hv]
      rcases bestFold_shape score l acc with h | ⟨b, hb, h⟩
      · exact Or.inl h
      · exact Or.inr ⟨b, List.mem_cons_of_mem _ hb, h⟩

lemma selectBest_eq_bestFold (pr : String → String → Nat) (q : String) (l : List Video) :
    selectBest pr q l = bestFold (fun v => (videoScore pr q v : Int)) (none, -1) l := rfl

/-- On a non-empty unplayed list, the best-match scan selects a member
whose score is greatest (the source breaks ties in favour of the first
such member). -/
lemma selectBest_spec (pr : String → String → Nat) (q : String) (v : Video) (vs : List Video) :
    ∃ b ∈ v :: vs,
      selectBest pr q (v :: vs) = (some b, (videoScore pr q b : Int)) ∧
      ∀ u ∈ v :: vs, videoScore pr q u ≤ videoScore pr q b := by
  have hge := bestFold_ge_all (fun v => (videoScore pr q v : Int)) (v :: vs) (none, -1)
  rcases bestFold_shape (fun v => (videoScore pr q v : Int)) (v :: vs) (none, -1) with
    h | ⟨b, hb, h⟩
  · exfalso
    have hv := hge v (List.mem_cons_self _ _)
    rw [h] at hv
    have : (0 : Int) ≤ (videoScore pr q v : Int) := Int.ofNat_nonneg _
    simp at hv
    omega
  · refine ⟨b, hb, by rw [selectBest_eq_bestFold, h], ?_⟩
    intro u hu
    have h2 := hge u hu
    rw [h] at h2
    simp only [Prod.snd] at h2
    exact_mod_cast h2

/-- On a video that has at least one tag, the checked scorer returns the
total score. -/
lemma videoScoreChecked_eq (pr : String → String → Nat) (q : String) (v : Video)
    (h : v.data.matched_weather_descriptions ≠ []) :
    videoScoreChecked pr q v = some (videoScore pr q v) := by
  cases htags : v.data.matched_weather_descriptions with
  | nil => exact absurd htags h
  | cons d ds =>
    simp [videoScoreChecked, videoScore, htags, List.foldl_cons, Nat.zero_max]

/-- When every scanned video has at least one tag, the checked scan does
not fault and computes the same fold as the total scan. -/
lemma selectBestChecked_eq (pr : String → String → Nat) (q : String) :
    ∀ (l : List Video) (acc : Option Video × Int),
      (∀ v ∈ l, v.data.matched_weather_descriptions ≠ []) →
      selectBestChecked pr q l acc =
        some (l.foldl
          (fun acc v =>
            if (videoScore pr q v : Int) > acc.2 then (some v, (videoScore pr q v : Int)) else acc)
          acc)
  | [], acc, _ => rfl
  | v :: vs, acc, h => by
    have hv := h v (List.mem_cons_self _ _)
    rw [selectBestChecked, videoScoreChecked_eq pr q v hv]
    simp only [List.foldl_cons]
    exact selectBestChecked_eq pr q vs _ (fun u hu => h u (List.mem_cons_of_mem _ hu))

lemma selectBestChecked_eq_selectBest (pr : String → String → Nat) (q : String)
    (l : List Video) (h : ∀ v ∈ l, v.data.matched_weather_descriptions ≠ []) :
    selectBestChecked pr q l (none, -1) = some (selectBest pr q l) := by
  rw [selectBestChecked_eq pr q l (none, -1) h]
  rfl

/-! ## Helper lemmas about the random serve -/

/-- With fuel for one refill retry, the fueled source recursion computes
exactly the spec's refill-then-proceed serve. -/
lemma getRandomMusicFuel_eq_iter (k fuel : Nat) (s : MusicState)
    (hall : s.all ≠ []) (hfuel : 2 ≤ fuel) :
    getRandomMusicFuel k fuel s = some (getRandomMusicIterSpec k s) := by
  obtain ⟨m, rfl⟩ : ∃ m, fuel = m + 2 := ⟨fuel - 2, by omega⟩
  obtain ⟨a, as, hs⟩ : ∃ a as, s.all = a :: as := by
    cases h : s.all with
    | nil => exact absurd h hall
    | cons a as => exact ⟨a, as, rfl⟩
  cases hup : s.unplayed with
  | nil => simp [getRandomMusicFuel, getRandomMusicIterSpec, refillState, hs, hup]
  | cons u us => simp [getRandomMusicFuel, getRandomMusicIterSpec, hs, hup]

/-- Once the universe is non-empty, a random serve always returns the
recommendation of some pool item (drawn from the unplayed list, or from
the whole universe right after a refill). -/
lemma getRandomMusic_serves (k fuel : Nat) (s : MusicState)
    (hall : s.all ≠ []) (hfuel : 2 ≤ fuel) :
    ∃ v t, getRandomMusicFuel k fuel s = some (some (randomRecOf v), t) ∧
      (v ∈ s.unplayed ∨ v ∈ s.all) := by
  rw [getRandomMusicFuel_eq_iter k fuel s hall hfuel]
  obtain ⟨a, as, hs⟩ : ∃ a as, s.all = a :: as := by
    cases h : s.all with
    | nil => exact absurd h hall
    | cons a as => exact ⟨a, as, rfl⟩
  cases hup : s.unplayed with
  | nil =>
    have hres : getRandomMusicIterSpec k s =
        serveRandomCore k (refillState s).all (refillState s).playedSet a as := by
      simp [getRandomMusicIterSpec, refillState, hs, hup]
    have hm : (a :: as).get ⟨k % (a :: as).length, Nat.mod_lt _ (Nat.succ_pos _)⟩ ∈ s.all := by
      rw [hs]; exact List.get_mem _ _ _
    exact ⟨_, (serveRandomCore k (refillState s).all (refillState s).playedSet a as).2,
      by rw [hres]; rfl, Or.inr hm⟩
  | cons u us =>
    have hres : getRandomMusicIterSpec k s = serveRandomCore k s.all s.playedSet u us := by
      simp [getRandomMusicIterSpec, hs, hup]
    exact ⟨_, (serveRandomCore k s.all s.playedSet u us).2, by rw [hres]; rfl,
      Or.inl (List.get_mem _ _ _)⟩

/-- Running one random-oracle value per remaining item serves, in some
order, exactly the recommendations of the remaining items. -/
lemma runRandom_cycle :
    ∀ (ks : List Nat) (s : MusicState), s.all ≠ [] →
      ks.length = s.unplayed.length →
      (runRandom ks s).1.Perm (s.unplayed.map (fun v => some (randomRecOf v)))
  | [], s, _, hlen => by
    have hup : s.unplayed = [] :=
      List.eq_nil_of_length_eq_zero (by simpa using hlen.symm)
    simp [runRandom, hup]
  | k :: ks', s, hall, hlen => by
    obtain ⟨u, us, hup⟩ : ∃ u us, s.unplayed = u :: us := by
      cases h : s.unplayed with
      | nil => rw [h] at hlen; simp at hlen
      | cons u us => exact ⟨u, us, rfl⟩
    obtain ⟨a, as, hs⟩ : ∃ a as, s.all = a :: as := by
      cases h : s.all with
      | nil => exact absurd h hall
      | cons a as => exact ⟨a, as, rfl⟩
    have hstep : getRandomMusicFuel k 2 s = some (serveRandomCore k s.all s.playedSet u us) := by
      simp [getRandomMusicFuel, hs, hup]
    have hrun : runRandom (k :: ks') s =
        ((serveRandomCore k s.all s.playedSet u us).1 ::
          (runRandom ks' (serveRandomCore k s.all s.playedSet u us).2).1,
          (runRandom ks' (serveRandomCore k s.all s.playedSet u us).2).2) := by
      simp [runRandom, hstep]
    set chosen := (u :: us).get ⟨k % (u :: us).length, Nat.mod_lt _ (Nat.succ_pos _)⟩ with hch
    have hmem : chosen ∈ u :: us := List.get_mem _ _ _
    have ht : (serveRandomCore k s.all s.playedSet u us).2 =
        { all := s.all, playedSet := chosen :: s.playedSet,
          unplayed := (u :: us).erase chosen } := rfl
    have hlen' : ks'.length = ((u :: us).erase chosen).length := by
      rw [List.length_erase_of_mem hmem]
      rw [hup] at hlen
      simp at hlen ⊢
      omega
    have ih := runRandom_cycle ks' (serveRandomCore k s.all s.playedSet u us).2
      (by rw [ht, hs]; simp) (by rw [ht]; exact hlen')
    have ih2 : (runRandom ks' (serveRandomCore k s.all s.playedSet u us).2).1.Perm
        (((u :: us).erase chosen).map (fun v => some (randomRecOf v))) := ih
    rw [hrun, hup]
    have hperm : (u :: us).Perm (chosen :: (u :: us).erase chosen) :=
      List.perm_cons_erase hmem
    refine List.Perm.trans (ih2.cons (some (randomRecOf chosen))) ?_
    exact (hperm.map (fun v => some (randomRecOf v))).symm

/-! ## Helper lemmas about the pool invariant -/

lemma invariant_refill (s : MusicState) (hI : MusicInvariant s) :
    MusicInvariant (refillState s) := by
  obtain ⟨hA, _, _, _⟩ := hI
  refine ⟨hA, hA, fun v hv => hv, ?_⟩
  intro v hv
  have hv' : v ∈ s.all := hv
  simp [refillState, playedFlag, List.mem_filter, hv']

lemma invariant_serve (s : MusicState) (hI : MusicInvariant s) (b : Video)
    (hb : b ∈ s.unplayed) :
    MusicInvariant ⟨s.all, b :: s.playedSet, s.unplayed.erase b⟩ := by
  obtain ⟨hA, hU, hSub, hIff⟩ := hI
  refine ⟨hA, hU.erase _, fun v hv => hSub v (List.erase_subset _ _ hv), ?_⟩
  intro v hv
  have h3 := hIff v hv
  simp only [playedFlag, decide_eq_false_iff_not] at h3 ⊢
  rw [List.Nodup.mem_erase_iff hU]
  simp only [List.mem_cons]
  constructor
  · rintro ⟨hne, hmem⟩
    intro hc
    rcases hc with rfl | hc
    · exact hne rfl
    · exact (h3.mp hmem) hc
  · intro hc
    push_neg at hc
    exact ⟨hc.1, h3.mpr hc.2⟩

lemma findAndRecommend_invariant (pr : String → String → Nat) (q : String) :
    ∀ (fuel : Nat) (s : MusicState) (r : Option MusicRecommendation) (t : MusicState),
      MusicInvariant s → findAndRecommendFuel pr q fuel s = some (r, t) → MusicInvariant t
  | 0, s, r, t, _, h => by simp [findAndRecommendFuel] at h
  | fuel + 1, s, r, t, hI, h => by
    cases hs : s.all with
    | nil =>
      rw [findAndRecommendFuel] at h
      rw [hs] at h
      simp at h
      exact h.2 ▸ hI
    | cons a as =>
      cases hup : s.unplayed with
      | nil =>
        rw [findAndRecommendFuel] at h
        rw [hs, hup] at h
        exact findAndRecommend_invariant pr q fuel (refillState s) r t
          (invariant_refill s hI) h
      | cons u us =>
        obtain ⟨b, hb, hsel, _⟩ := selectBest_spec pr q u us
        rw [findAndRecommendFuel] at h
        simp only [hs, hup, hsel] at h
        by_cases h70 : (70 : Int) ≤ (videoScore pr q b : Int)
        · rw [if_pos h70] at h
          injection h with h'
          have hinv := invariant_serve s hI b (by rw [hup]; exact hb)
          rw [hs, hup] at hinv
          have ht : t = (⟨a :: as, b :: s.playedSet, (u :: us).erase b⟩ : MusicState) :=
            (congrArg Prod.snd h').symm
          rw [ht]
          exact hinv
        · rw [if_neg h70] at h
          injection h with h'
          have ht : t = s := (congrArg Prod.snd h').symm
          rw [ht]
          exact hI

lemma getRandomMusic_invariant (k : Nat) :
    ∀ (fuel : Nat) (s : MusicState) (r : Option MusicRecommendation) (t : MusicState),
      MusicInvariant s → getRandomMusicFuel k fuel s = some (r, t) → MusicInvariant t
  | 0, s, r, t, _, h => by simp [getRandomMusicFuel] at h
  | fuel + 1, s, r, t, hI, h => by
    cases hs : s.all with
    | nil =>
      rw [getRandomMusicFuel] at h
      rw [hs] at h
      simp at h
      exact h.2 ▸ hI
    | cons a as =>
      cases hup : s.unplayed with
      | nil =>
        rw [getRandomMusicFuel] at h
        rw [hs, hup] at h
        exact getRandomMusic_invariant k fuel (refillState s) r t
          (invariant_refill s hI) h
      | cons u us =>
        rw [getRandomMusicFuel] at h
        simp only [hs, hup] at h
        injection h with h'
        have hmem : (u :: us).get ⟨k % (u :: us).length, Nat.mod_lt _ (Nat.succ_pos _)⟩
            ∈ s.unplayed := by
          rw [hup]; exact List.get_mem _ _ _
        have hinv := invariant_serve s hI _ hmem
        rw [hs, hup] at hinv
        have ht : t = (serveRandomCore k (a :: as) s.playedSet u us).2 :=
          (congrArg Prod.snd h').symm
        rw [ht]
        exact hinv

lemma loadVideos_invariant (raw : List (VideoFields × Bool)) :
    MusicInvariant (loadVideos raw) := by
  have hall : (loadVideos raw).all = raw.enum.map (fun p => Video.mk p.1 p.2.1) := rfl
  have hun : (loadVideos raw).unplayed =
      (loadVideos raw).all.filter (fun v => decide (v ∉ (loadVideos raw).playedSet)) := rfl
  have hnodA : (loadVideos raw).all.Nodup := by
    refine List.Nodup.of_map Video.idx ?_
    rw [hall, List.map_map]
    have hcomp : (Video.idx ∘ fun p : Nat × (VideoFields × Bool) => Video.mk p.1 p.2.1) =
        Prod.fst := rfl
    rw [hcomp, List.enum_map_fst]
    exact List.nodup_range _
  refine ⟨hnodA, ?_, ?_, ?_⟩
  · rw [hun]; exact hnodA.filter _
  · intro v hv
    rw [hun] at hv
    exact (List.mem_filter.mp hv).1
  · intro v hv
    rw [hun, List.mem_filter]
    simp [playedFlag, hv]

/-- A sample video used by the concrete witnesses below. -/
def vidA : Video := ⟨0, "uA", "dA", ["tA"]⟩

/-- A second sample video used by the concrete witnesses below. -/
def vidB : Video := ⟨1, "uB", "dB", ["tB"]⟩

/-! ## Claim theorems: music service -/

/-- C1: once the pool's universe is non-empty, `get_random_music_recommendation`
always returns the recommendation of a pool item (never Python `None` and never
the empty-list message), and a full cycle of `|universe|` consecutive calls
starting from a freshly refilled pool returns each item of the universe exactly
once (the outputs are a permutation of the per-item recommendations). -/
theorem serve_random_total_and_cycle (s : MusicState) (hall : s.all ≠ []) :
    (∀ k fuel, 2 ≤ fuel → ∃ v t,
      getRandomMusicFuel k fuel s = some (some (randomRecOf v), t) ∧
      (v ∈ s.unplayed ∨ v ∈ s.all)) ∧
    (s.unplayed = s.all → ∀ ks : List Nat, ks.length = s.all.length →
      (runRandom ks s).1.Perm (s.all.map (fun v => some (randomRecOf v)))) := by
  refine ⟨fun k fuel hf => getRandomMusic_serves k fuel s hall hf, ?_⟩
  intro hcycle ks hlen
  have h := runRandom_cycle ks s hall (by rw [hcycle]; exact hlen)
  rw [hcycle] at h
  exact h

theorem serve_random_total_and_cycle_witness :
    (∃ v t, getRandomMusicFuel 1 2 (⟨[vidA, vidB], [], [vidA, vidB]⟩ : MusicState) =
        some (some (randomRecOf v), t) ∧
      (v ∈ (⟨[vidA, vidB], [], [vidA, vidB]⟩ : MusicState).unplayed ∨
        v ∈ (⟨[vidA, vidB], [], [vidA, vidB]⟩ : MusicState).all)) ∧
    (runRandom [0, 0] (⟨[vidA, vidB], [], [vidA, vidB]⟩ : MusicState)).1.Perm
      ((⟨[vidA, vidB], [], [vidA, vidB]⟩ : MusicState).all.map (fun v => some (randomRecOf v))) :=
  ⟨(serve_random_total_and_cycle ⟨[vidA, vidB], [], [vidA, vidB]⟩ (by decide)).1 1 2 (by decide),
    (serve_random_total_and_cycle ⟨[vidA, vidB], [], [vidA, vidB]⟩ (by decide)).2 rfl [0, 0] rfl⟩

/-- C2 counterexample: on an exhausted pool (`remaining = []`, universe
non-empty) with every fuzzy score below the threshold,
`find_and_recommend_music_by_desc` refills and then returns NoMatch, so the
call returns NoMatch while `remaining` changed from `[]` to the universe —
refuting "whenever serve_by_match returns NoMatch, remaining is unchanged". -/
theorem serve_by_match_nomatch_mutates_cex :
    findAndRecommendFuel (fun _ _ => 0) "晴" 2
        (⟨[⟨0, "u", "d", ["t"]⟩], [⟨0, "u", "d", ["t"]⟩], []⟩ : MusicState) =
      some (none, ⟨[⟨0, "u", "d", ["t"]⟩], [], [⟨0, "u", "d", ["t"]⟩]⟩) ∧
    (⟨[⟨0, "u", "d", ["t"]⟩], [], [⟨0, "u", "d", ["t"]⟩]⟩ : MusicState).unplayed ≠
      (⟨[⟨0, "u", "d", ["t"]⟩], [⟨0, "u", "d", ["t"]⟩], []⟩ : MusicState).unplayed := by
  decide

lemma findAndRecommend_nomatch_frame_aux (pr : String → String → Nat) (q : String)
    (fuel : Nat) (s t : MusicState) (hup : s.unplayed ≠ [])
    (h : findAndRecommendFuel pr q (fuel + 1) s = some (none, t)) : t = s := by
  cases hs : s.all with
  | nil =>
    rw [findAndRecommendFuel] at h
    simp only [hs] at h
    simp [musicListEmptyRec] at h
  | cons a as =>
    cases hup' : s.unplayed with
    | nil => exact absurd hup' hup
    | cons u us =>
      obtain ⟨b, hb, hsel, _⟩ := selectBest_spec pr q u us
      rw [findAndRecommendFuel] at h
      simp only [hs, hup', hsel] at h
      by_cases h70 : (70 : Int) ≤ (videoScore pr q b : Int)
      · rw [if_pos h70] at h
        simp at h
      · rw [if_neg h70] at h
        injection h with h'
        exact (congrArg Prod.snd h').symm

/-- C2 (amended): when `find_and_recommend_music_by_desc` returns NoMatch and
`remaining` was non-empty at the start of the call (so no refill was
triggered), `remaining` — in fact the whole module state — is unchanged; when
`remaining` was empty at the start, the call first refills, so a NoMatch
return leaves `remaining` equal to the full universe instead. -/
theorem serve_by_match_nomatch_frame (pr : String → String → Nat) (q : String)
    (fuel : Nat) (s t : MusicState) :
    (s.unplayed ≠ [] →
      findAndRecommendFuel pr q (fuel + 1) s = some (none, t) →
      t.unplayed = s.unplayed) ∧
    (s.unplayed = [] → s.all ≠ [] →
      findAndRecommendFuel pr q (fuel + 2) s = some (none, t) →
      t.unplayed = s.all) := by
  constructor
  · intro hup h
    rw [findAndRecommend_nomatch_frame_aux pr q fuel s t hup h]
  · intro hup hall h
    rw [findAndRecommendFuel] at h
    simp only [hup] at h
    obtain ⟨a, as, hs⟩ : ∃ a as, s.all = a :: as := by
      cases hx : s.all with
      | nil => exact absurd hx hall
      | cons a as => exact ⟨a, as, rfl⟩
    simp only [hs] at h
    have hrefill : (refillState s).unplayed ≠ [] := by
      simp [refillState, hs]
    have := findAndRecommend_nomatch_frame_aux pr q fuel (refillState s) t hrefill h
    rw [this]
    rfl

theorem serve_by_match_nomatch_frame_witness :
    ((⟨[vidA], [], [vidA]⟩ : MusicState).unplayed ≠ []) ∧
    ((⟨[vidA], [], [vidA]⟩ : MusicState).unplayed =
      (⟨[vidA], [], [vidA]⟩ : MusicState).unplayed) :=
  ⟨by decide,
    (serve_by_match_nomatch_frame (fun _ _ => 0) "x" 0 ⟨[vidA], [], [vidA]⟩
      ⟨[vidA], [], [vidA]⟩).1 (by decide) (by decide)⟩

/-- C3 counterexample: on a non-empty unplayed list containing a video with
an empty tag list, `find_and_recommend_music_by_desc` does not serve an item
and does not return NoMatch — Python's `max()` over the empty score
generator raises an unhandled `ValueError` — refuting the claim's
"serves the best item or returns NoMatch" dichotomy for every non-empty
remaining set. -/
theorem serve_by_match_tagless_faults_cex :
    findAndRecommendChecked (fun _ _ => 0) "晴" 1
        (⟨[⟨0, "u", "d", []⟩], [], [⟨0, "u", "d", []⟩]⟩ : MusicState) =
      some (.valueError ⟨[⟨0, "u", "d", []⟩], [], [⟨0, "u", "d", []⟩]⟩) := by
  decide

/-- C3 (amended): on a non-empty unplayed list all of whose videos have at
least one tag (on a tagless video the source instead raises an unhandled
`ValueError`, see the counterexample), `find_and_recommend_music_by_desc`
scores each unplayed video as the maximum fuzzy score over its tags, selects
a video of maximal score (the first such, by the strict-improvement scan),
and: if that score reaches the threshold 70 it marks exactly that video
played, removes exactly it from the unplayed list and returns its
recommendation; otherwise it returns NoMatch and leaves the state
unchanged. -/
theorem serve_by_match_correct (pr : String → String → Nat) (q : String) (fuel : Nat)
    (s : MusicState) (hall : s.all ≠ []) (hup : s.unplayed ≠ [])
    (htags : ∀ v ∈ s.unplayed, v.data.matched_weather_descriptions ≠ []) :
    ∃ b ∈ s.unplayed,
      videoScoreChecked pr q b = some (videoScore pr q b) ∧
      (∀ v ∈ s.unplayed, videoScore pr q v ≤ videoScore pr q b) ∧
      (70 ≤ videoScore pr q b →
        findAndRecommendChecked pr q (fuel + 1) s =
          some (.returns (some (matchRecOf q b))
            ⟨s.all, b :: s.playedSet, s.unplayed.erase b⟩)) ∧
      (videoScore pr q b < 70 →
        findAndRecommendChecked pr q (fuel + 1) s = some (.returns none s)) := by
  obtain ⟨a, as, hs⟩ : ∃ a as, s.all = a :: as := by
    cases hx : s.all with
    | nil => exact absurd hx hall
    | cons a as => exact ⟨a, as, rfl⟩
  obtain ⟨u, us, hup'⟩ : ∃ u us, s.unplayed = u :: us := by
    cases hx : s.unplayed with
    | nil => exact absurd hx hup
    | cons u us => exact ⟨u, us, rfl⟩
  obtain ⟨b, hb, hsel, hmax⟩ := selectBest_spec pr q u us
  have hsel' : selectBestChecked pr q (u :: us) (none, -1) =
      some (some b, (videoScore pr q b : Int)) := by
    rw [selectBestChecked_eq_selectBest pr q (u :: us)
      (fun v hv => htags v (by rw [hup']; exact hv)), hsel]
  refine ⟨b, by rw [hup']; exact hb,
    videoScoreChecked_eq pr q b (htags b (by rw [hup']; exact hb)), ?_, ?_, ?_⟩
  · intro v hv
    rw [hup'] at hv
    exact hmax v hv
  · intro h70
    rw [findAndRecommendChecked]
    simp only [hs, hup', hsel']
    rw [if_pos (by exact_mod_cast h70)]
  · intro h70
    rw [findAndRecommendChecked]
    simp only [hs, hup', hsel']
    rw [if_neg (by exact_mod_cast not_le.mpr h70)]

theorem serve_by_match_correct_witness :
    ∃ b ∈ (⟨[vidA], [], [vidA]⟩ : MusicState).unplayed,
      videoScoreChecked (fun _ _ => 80) "晴" b =
        some (videoScore (fun _ _ => 80) "晴" b) ∧
      (∀ v ∈ (⟨[vidA], [], [vidA]⟩ : MusicState).unplayed,
        videoScore (fun _ _ => 80) "晴" v ≤ videoScore (fun _ _ => 80) "晴" b) ∧
      (70 ≤ videoScore (fun _ _ => 80) "晴" b →
        findAndRecommendChecked (fun _ _ => 80) "晴" (0 + 1) ⟨[vidA], [], [vidA]⟩ =
          some (.returns (some (matchRecOf "晴" b))
            ⟨(⟨[vidA], [], [vidA]⟩ : MusicState).all,
              b :: (⟨[vidA], [], [vidA]⟩ : MusicState).playedSet,
              (⟨[vidA], [], [vidA]⟩ : MusicState).unplayed.erase b⟩)) ∧
      (videoScore (fun _ _ => 80) "晴" b < 70 →
        findAndRecommendChecked (fun _ _ => 80) "晴" (0 + 1) ⟨[vidA], [], [vidA]⟩ =
          some (.returns none ⟨[vidA], [], [vidA]⟩)) :=
  serve_by_match_correct (fun _ _ => 80) "晴" 0 ⟨[vidA], [], [vidA]⟩
    (by decide) (by decide) (by decide)

/-- C4: for a non-empty universe, the source's refill-then-recurse control
flow equals the spec's non-recursive "refill if empty, then serve" form for
every fuel allowing at least one recursive retry — so the recursion
terminates after at most one recursive call and a serve call is never
blocked by exhaustion. -/
theorem serve_random_refill_equiv (k fuel : Nat) (s : MusicState)
    (hall : s.all ≠ []) (hfuel : 2 ≤ fuel) :
    getRandomMusicFuel k fuel s = some (getRandomMusicIterSpec k s) :=
  getRandomMusicFuel_eq_iter k fuel s hall hfuel

theorem serve_random_refill_equiv_witness :
    getRandomMusicFuel 5 2 (⟨[vidA], [vidA], []⟩ : MusicState) =
      some (getRandomMusicIterSpec 5 (⟨[vidA], [vidA], []⟩ : MusicState)) :=
  serve_random_refill_equiv 5 2 ⟨[vidA], [vidA], []⟩ (by decide) (by decide)

/-- C10: loading establishes, and both serve operations (including their
refill-on-exhaustion branch) preserve, the pool invariant: a video of the
universe is unplayed iff its `played` flag is off, and the unplayed list is a
duplicate-free sublist of the universe. -/
theorem music_pool_invariant
    (raw : List (VideoFields × Bool)) (pr : String → String → Nat) (q : String)
    (k fuel : Nat) (s t : MusicState) :
    MusicInvariant (loadVideos raw) ∧
    (MusicInvariant s → ∀ r, findAndRecommendFuel pr q fuel s = some (r, t) →
      MusicInvariant t) ∧
    (MusicInvariant s → ∀ r, getRandomMusicFuel k fuel s = some (r, t) →
      MusicInvariant t) :=
  ⟨loadVideos_invariant raw,
    fun hI r h => findAndRecommend_invariant pr q fuel s r t hI h,
    fun hI r h => getRandomMusic_invariant k fuel s r t hI h⟩

theorem music_pool_invariant_witness :
    MusicInvariant (⟨[vidA], [], [vidA]⟩ : MusicState) ∧
    MusicInvariant (⟨[vidA], [vidA], []⟩ : MusicState) :=
  ⟨by decide,
    (music_pool_invariant [] (fun _ _ => 0) "" 0 2
      ⟨[vidA], [], [vidA]⟩ ⟨[vidA], [vidA], []⟩).2.2 (by decide)
      (some (randomRecOf vidA)) (by decide)⟩

/-! ## Weather service: data model (src/models.py, src/services/weather_service.py) -/

/-- The response model `WeatherResponse` of `src/models.py`. -/
structure WeatherResponse where
  city_name : String
  weather_description : String
  display_text : String
  current_weather_type : String
deriving DecidableEq, Repr

/-- The mutable module state of `src/services/weather_service.py`:
`locationNames` is `_location_names` and `cache` is `_weather_data_cache`
(region name keyed to the cached response and its fetch timestamp, in
seconds). -/
structure WeatherState where
  locationNames : List String
  cache : List (String × WeatherResponse × Nat)
deriving DecidableEq, Repr

/-- The hard-coded fallback region list of weather_service.py lines 32–36,
used when the location-list fetch fails. -/
def fallbackLocationNames : List String :=
  ["臺北市", "新北市", "桃園市", "臺中市", "臺南市", "高雄市", "基隆市", "新竹市", "嘉義市",
   "新竹縣", "苗栗縣", "彰化縣", "南投縣", "雲林縣", "嘉義縣", "屏東縣", "宜蘭縣", "花蓮縣",
   "臺東縣", "澎湖縣", "金門縣", "連江縣"]

/-- Modelled from the spec: the fixed alias table
`settings.MANUAL_CORRECTIONS` lives in `src/config.py`, which is missing
from the provided sources; §8 of the specification pins the mapping
台北 → 臺北市 as its behaviour ("region alias table maps 台北 → 臺北市"),
so the table is modelled as exactly that entry. -/
def MANUAL_CORRECTIONS : List (String × String) := [("台北", "臺北市")]

/-- `settings.MANUAL_CORRECTIONS.get(input_city, ...)` as an optional
lookup in the modelled table. -/
def manualCorrectionLookup (s : String) : Option String :=
  MANUAL_CORRECTIONS.lookup s

/-- The strict-improvement fold behind `process.extractOne` with
`scorer=fuzz.ratio` (weather_service.py line 62): the first candidate
seeds the accumulator, later candidates replace it exactly when they
score strictly higher (Python's `max` keeps the first maximum). -/
def bestByScore (score : String → Nat) (c : String) (cs : List String) : String × Nat :=
  cs.foldl (fun acc x => if score x > acc.2 then (x, score x) else acc) (c, score c)

/-- `_auto_correct_city` (weather_service.py lines 53–65).  The alias
table (`aliases`, from the missing `src/config.py`) and the third-party
`fuzz.ratio` scorer (`ratio`) are parameters. -/
def autoCorrectCity (aliases : String → Option String) (ratio : String → String → Nat)
    (input_city : String) (available_locations : List String) : Option String :=
  let corrected := (aliases input_city).getD input_city
  if corrected ∈ available_locations then some corrected
  else
    match available_locations with
    | [] => none
    | c :: cs =>
      let best := bestByScore (ratio corrected) c cs
      if 75 ≤ best.2 then some best.1 else none

/-- `_classify_weather_type` (weather_service.py lines 67–79); the
configured keyword map (`settings.WEATHER_KEYWORDS_MAP`, from the missing
`src/config.py`) is a parameter.  Substring containment models Python's
`in` on strings. -/
def containsSub (hay needle : String) : Bool :=
  hay.toList.tails.any (fun t => needle.toList.isPrefixOf t)

def classifyWeatherType (keywords : List (String × String)) (weather_desc : String) : String :=
  match keywords.find? (fun kv => containsSub weather_desc kv.1) with
  | some kv => kv.2
  | none =>
    if containsSub weather_desc "晴" then "晴"
    else if containsSub weather_desc "雨" then "雨"
    else if containsSub weather_desc "陰" then "陰"
    else if containsSub weather_desc "多雲" then "多雲"
    else if containsSub weather_desc "雪" then "雪"
    else "晴"

/-- The time-of-day bucket of weather_service.py line 122. -/
def timeDescOf (hour : Nat) : String :=
  if hour < 6 then "午夜到早晨"
  else if hour < 12 then "早晨到中午"
  else if hour < 18 then "中午到傍晚"
  else "傍晚到午夜"

/-- One outcome of the weather fetch-and-parse of weather_service.py
lines 112–131: `ok` carries the pieces the source extracts from a
well-formed payload (nearest forecast's description, its start-time
month/day/hour, and the matched PoP text, `"N/A"` when absent);
`malformed` is the records/location-missing-or-empty branch (line 145);
`requestError` is the `requests.exceptions.RequestException` handler and
`processError` the generic `except` handler. -/
inductive FetchOutcome where
  | ok (desc : String) (month day hour : Nat) (pop : String)
  | malformed
  | requestError (e : String)
  | processError (e : String)
deriving DecidableEq, Repr

/-- The `WeatherResponse` built for a successful fetch
(weather_service.py lines 133–141). -/
def buildWeatherResponse (keywords : List (String × String)) (city desc : String)
    (month day hour : Nat) (pop : String) : WeatherResponse :=
  { city_name := city
    weather_description := desc
    display_text := city ++ " " ++ toString month ++ "/" ++ toString day ++ " " ++
      timeDescOf hour ++ "是：" ++ desc ++ "，降雨機率" ++ pop ++ "喔！"
    current_weather_type := classifyWeatherType keywords desc }

/-- Python dict assignment `_weather_data_cache[city] = value`: a single
entry per key, overwriting any prior entry. -/
def cacheInsert (city : String) (val : WeatherResponse × Nat)
    (c : List (String × WeatherResponse × Nat)) : List (String × WeatherResponse × Nat) :=
  (city, val) :: c.filter (fun e => decide (e.1 ≠ city))

/-- The fetch-and-handle part of `get_current_weather`
(weather_service.py lines 111–166): on a parsed payload build the
response and overwrite the cache entry; on the malformed branch and on
either exception return the corresponding synthetic response and leave
the state untouched.  The `Bool` records that the upstream weather fetch
was invoked. -/
def fetchWeatherAndCache (keywords : List (String × String)) (fetchW : FetchOutcome)
    (now : Nat) (city : String) (s : WeatherState) : WeatherResponse × WeatherState × Bool :=
  match fetchW with
  | .ok desc month day hour pop =>
    let resp := buildWeatherResponse keywords city desc month day hour pop
    (resp, { s with cache := cacheInsert city (resp, now) s.cache }, true)
  | .malformed =>
    ({ city_name := city, weather_description := "N/A",
       display_text := "無法取得天氣資料：資料結構異常或無有效預報",
       current_weather_type := "晴" }, s, true)
  | .requestError e =>
    ({ city_name := city, weather_description := "N/A",
       display_text := "無法取得天氣資料：網路或API錯誤 (" ++ e ++ ")",
       current_weather_type := "晴" }, s, true)
  | .processError e =>
    ({ city_name := city, weather_description := "N/A",
       display_text := "處理天氣資料時發生錯誤: " ++ e,
       current_weather_type := "晴" }, s, true)

/-- The cache-or-fetch core of `get_current_weather`
(weather_service.py lines 104–166): a cache entry younger than 600
seconds is returned without fetching; otherwise the fetch runs
(`fetchWeatherAndCache`).  The `Bool` records whether the upstream fetch
was invoked. -/
def getOrFetchWeather (keywords : List (String × String)) (fetchW : FetchOutcome)
    (now : Nat) (city : String) (s : WeatherState) : WeatherResponse × WeatherState × Bool :=
  match s.cache.lookup city with
  | some (resp, ts) =>
    if now - ts < 600 then (resp, s, false)
    else fetchWeatherAndCache keywords fetchW now city s
  | none => fetchWeatherAndCache keywords fetchW now city s

/-- `_get_all_location_names` (weather_service.py lines 15–37): a cached
non-empty list is returned as is; otherwise the remote fetch result
(`locFetch`, `none` standing for the exception / malformed-shape paths)
or the hard-coded fallback list is stored and returned.  The `Bool`
records that the location-list HTTP fetch was attempted. -/
def getAllLocationNames (locFetch : Option (List String)) (s : WeatherState) :
    List String × WeatherState × Bool :=
  match s.locationNames with
  | _ :: _ => (s.locationNames, s, false)
  | [] =>
    match locFetch with
    | some names => (names, { s with locationNames := names }, true)
    | none => (fallbackLocationNames, { s with locationNames := fallbackLocationNames }, true)

/-- Which externals a `get_current_weather` call touched: the
location-list HTTP fetch, the `_auto_correct_city` corrector, and the
upstream weather HTTP fetch. -/
structure CallLog where
  locFetchCalled : Bool
  correctorCalled : Bool
  weatherFetchCalled : Bool
deriving DecidableEq, Repr

/-- `get_current_weather` (weather_service.py lines 81–166), instrumented
with a `CallLog` recording which external calls were made. -/
def getCurrentWeather (aliases : String → Option String) (ratio : String → String → Nat)
    (keywords : List (String × String)) (locFetch : Option (List String))
    (fetchW : FetchOutcome) (now : Nat) (city_input : String) (s : WeatherState) :
    WeatherResponse × WeatherState × CallLog :=
  if city_input.toList.any Char.isDigit then
    ({ city_name := city_input, weather_description := "無效輸入",
       display_text := "縣市名稱不能包含數字！", current_weather_type := "晴" },
     s, ⟨false, false, false⟩)
  else
    let locRes := getAllLocationNames locFetch s
    match autoCorrectCity aliases ratio city_input locRes.1 with
    | none =>
      ({ city_name := city_input, weather_description := "無效輸入",
         display_text := "無效或無法識別的縣市: " ++ city_input,
         current_weather_type := "晴" },
       locRes.2.1, ⟨locRes.2.2, true, false⟩)
    | some corrected_city =>
      let wRes := getOrFetchWeather keywords fetchW now corrected_city locRes.2.1
      (wRes.1, wRes.2.1, ⟨locRes.2.2, true, wRes.2.2⟩)

/-! ## Helper lemma about the extractOne fold -/

lemma bestByScore_spec (score : String → Nat) :
    ∀ (cs : List String) (c : String),
      (bestByScore score c cs).1 ∈ c :: cs ∧
      (bestByScore score c cs).2 = score (bestByScore score c cs).1 ∧
      ∀ x ∈ c :: cs, score x ≤ (bestByScore score c cs).2
  | [], c => by
    refine ⟨List.mem_cons_self _ _, rfl, ?_⟩
    intro x hx
    rcases List.mem_cons.mp hx with rfl | hx
    · exact le_refl _
    · simp at hx
  | x :: cs, c => by
    by_cases hxc : score x > score c
    · have hstep : bestByScore score c (x :: cs) = bestByScore score x cs := by
        simp [bestByScore, hxc]
      obtain ⟨h1, h2, h3⟩ := bestByScore_spec score cs x
      rw [hstep]
      refine ⟨?_, h2, ?_⟩
      · rcases List.mem_cons.mp h1 with h | h
        · rw [h]
          exact List.mem_cons_of_mem _ (List.mem_cons_self _ _)
        · exact List.mem_cons_of_mem _ (List.mem_cons_of_mem _ h)
      · intro y hy
        have hxle : score x ≤ (bestByScore score x cs).2 := h3 _ (List.mem_cons_self _ _)
        rcases List.mem_cons.mp hy with rfl | hy
        · exact le_trans (le_of_lt hxc) hxle
        · rcases List.mem_cons.mp hy with rfl | hy
          · exact hxle
          · exact h3 y (List.mem_cons_of_mem _ hy)
    · have hstep : bestByScore score c (x :: cs) = bestByScore score c cs := by
        simp [bestByScore, hxc]
      obtain ⟨h1, h2, h3⟩ := bestByScore_spec score cs c
      rw [hstep]
      refine ⟨?_, h2, ?_⟩
      · rcases List.mem_cons.mp h1 with h | h
        · rw [h]
          exact List.mem_cons_self _ _
        · exact List.mem_cons_of_mem _ (List.mem_cons_of_mem _ h)
      · intro y hy
        have hcle : score c ≤ (bestByScore score c cs).2 := h3 _ (List.mem_cons_self _ _)
        rcases List.mem_cons.mp hy with rfl | hy
        · exact hcle
        · rcases List.mem_cons.mp hy with rfl | hy
          · exact le_trans (not_lt.mp hxc) hcle
          · exact h3 y (List.mem_cons_of_mem _ hy)

/-! ## Claim theorems: weather service -/

/-- C5: `_auto_correct_city` first substitutes the alias-table target for the
input when present (the working string below is `(aliases input).getD input`),
returns the working string when it exactly equals a candidate — regardless of
any fuzzy score — and otherwise picks a candidate of maximal `fuzz.ratio`
score against the working string, returning it when the best score is at
least 75 and NoMatch otherwise. -/
theorem auto_correct_city_correct (aliases : String → Option String)
    (ratio : String → String → Nat) (input_city : String) (c : String) (cs : List String) :
    ((aliases input_city).getD input_city ∈ c :: cs →
      autoCorrectCity aliases ratio input_city (c :: cs) =
        some ((aliases input_city).getD input_city)) ∧
    ((aliases input_city).getD input_city ∉ c :: cs →
      ∃ b ∈ c :: cs,
        (∀ x ∈ c :: cs, ratio ((aliases input_city).getD input_city) x ≤
          ratio ((aliases input_city).getD input_city) b) ∧
        (75 ≤ ratio ((aliases input_city).getD input_city) b →
          autoCorrectCity aliases ratio input_city (c :: cs) = some b) ∧
        (ratio ((aliases input_city).getD input_city) b < 75 →
          autoCorrectCity aliases ratio input_city (c :: cs) = none)) := by
  constructor
  · intro hmem
    simp only [autoCorrectCity]
    rw [if_pos hmem]
  · intro hmem
    obtain ⟨h1, h2, h3⟩ :=
      bestByScore_spec (ratio ((aliases input_city).getD input_city)) cs c
    refine ⟨(bestByScore (ratio ((aliases input_city).getD input_city)) c cs).1, h1,
      fun x hx => h2 ▸ h3 x hx, ?_, ?_⟩
    · intro h75
      simp only [autoCorrectCity]
      rw [if_neg hmem]
      have h75' : 75 ≤ (bestByScore (ratio ((aliases input_city).getD input_city)) c cs).2 := by
        rw [h2]; exact h75
      rw [if_pos h75']
    · intro h75
      simp only [autoCorrectCity]
      rw [if_neg hmem]
      have h75' : ¬ 75 ≤ (bestByScore (ratio ((aliases input_city).getD input_city)) c cs).2 := by
        rw [h2]; exact not_le.mpr h75
      rw [if_neg h75']

theorem auto_correct_city_correct_witness :
    autoCorrectCity manualCorrectionLookup (fun _ _ => 0) "台北" ["臺北市"] =
      some ((manualCorrectionLookup "台北").getD "台北") :=
  (auto_correct_city_correct manualCorrectionLookup (fun _ _ => 0) "台北" "臺北市" []).1
    (by decide)

/-- C6: the corrector is idempotent on canonical names: for any alias table,
a candidate-set member that the table does not remap is returned unchanged,
whatever the fuzzy scorer does; in particular, with the modelled
`MANUAL_CORRECTIONS` table every member of the source's hard-coded region
list is returned unchanged. -/
theorem auto_correct_city_idempotent :
    (∀ (aliases : String → Option String) (ratio : String → String → Nat)
        (input_city : String) (avail : List String),
      input_city ∈ avail → aliases input_city = none →
      autoCorrectCity aliases ratio input_city avail = some input_city) ∧
    (∀ (ratio : String → String → Nat) (input_city : String),
      input_city ∈ fallbackLocationNames →
      autoCorrectCity manualCorrectionLookup ratio input_city fallbackLocationNames =
        some input_city) := by
  have hgen : ∀ (aliases : String → Option String) (ratio : String → String → Nat)
      (input_city : String) (avail : List String),
      input_city ∈ avail → aliases input_city = none →
      autoCorrectCity aliases ratio input_city avail = some input_city := by
    intro aliases ratio input_city avail hmem halias
    simp only [autoCorrectCity, halias, Option.getD_none]
    rw [if_pos hmem]
  refine ⟨hgen, fun ratio input_city hmem => hgen _ ratio _ _ hmem ?_⟩
  have hnone : ∀ x ∈ fallbackLocationNames, manualCorrectionLookup x = none := by decide
  exact hnone _ hmem

theorem auto_correct_city_idempotent_witness :
    "臺北市" ∈ fallbackLocationNames ∧
    autoCorrectCity manualCorrectionLookup (fun _ _ => 0) "臺北市" fallbackLocationNames =
      some "臺北市" :=
  ⟨by decide, auto_correct_city_idempotent.2 (fun _ _ => 0) "臺北市" (by decide)⟩

/-- C7: a cache entry younger than 600 seconds is returned as is without
invoking the fetch; a miss followed (within the window) by a second lookup
yields the identical snapshot with exactly one fetch; once the window has
elapsed the next lookup fetches again and, on success, overwrites the entry
with the new snapshot and timestamp. -/
theorem weather_cache_freshness (keywords : List (String × String)) (fetchW : FetchOutcome)
    (now now2 : Nat) (region : String) (s : WeatherState) (resp : WeatherResponse) (ts : Nat)
    (desc : String) (month day hour : Nat) (pop : String) :
    (s.cache.lookup region = some (resp, ts) → now - ts < 600 →
      getOrFetchWeather keywords fetchW now region s = (resp, s, false)) ∧
    (s.cache.lookup region = none → now2 - now < 600 →
      (getOrFetchWeather keywords (.ok desc month day hour pop) now region s).2.2 = true ∧
      getOrFetchWeather keywords fetchW now2 region
          (getOrFetchWeather keywords (.ok desc month day hour pop) now region s).2.1 =
        ((getOrFetchWeather keywords (.ok desc month day hour pop) now region s).1,
          (getOrFetchWeather keywords (.ok desc month day hour pop) now region s).2.1,
          false)) ∧
    (s.cache.lookup region = some (resp, ts) → ¬ now - ts < 600 →
      getOrFetchWeather keywords (.ok desc month day hour pop) now region s =
        (buildWeatherResponse keywords region desc month day hour pop,
          { s with cache := cacheInsert region (buildWeatherResponse keywords region desc month day hour pop, now) s.cache },
          true)) := by
  refine ⟨?_, ?_, ?_⟩
  · intro hlook hfresh
    simp only [getOrFetchWeather, hlook]
    rw [if_pos hfresh]
  · intro hlook hfresh
    have h1 : getOrFetchWeather keywords (.ok desc month day hour pop) now region s =
        (buildWeatherResponse keywords region desc month day hour pop,
          { s with cache := cacheInsert region (buildWeatherResponse keywords region desc month day hour pop, now) s.cache },
          true) := by
      simp only [getOrFetchWeather, hlook]
      rfl
    refine ⟨by rw [h1], ?_⟩
    rw [h1]
    have h2 : (cacheInsert region
        (buildWeatherResponse keywords region desc month day hour pop, now) s.cache).lookup
          region =
        some (buildWeatherResponse keywords region desc month day hour pop, now) := by
      simp [cacheInsert, List.lookup]
    simp only [getOrFetchWeather, h2]
    rw [if_pos hfresh]
  · intro hlook hstale
    simp only [getOrFetchWeather, hlook]
    rw [if_neg hstale]
    rfl

theorem weather_cache_freshness_witness :
    ((⟨[], [("臺北市", ⟨"臺北市", "晴", "t", "晴"⟩, 100)]⟩ :
        WeatherState).cache.lookup "臺北市" =
      some (⟨"臺北市", "晴", "t", "晴"⟩, 100)) ∧
    getOrFetchWeather [] FetchOutcome.malformed 200 "臺北市"
        ⟨[], [("臺北市", ⟨"臺北市", "晴", "t", "晴"⟩, 100)]⟩ =
      ((⟨"臺北市", "晴", "t", "晴"⟩ : WeatherResponse),
        (⟨[], [("臺北市", ⟨"臺北市", "晴", "t", "晴"⟩, 100)]⟩ : WeatherState), false) :=
  ⟨by decide,
    (weather_cache_freshness [] FetchOutcome.malformed 200 0 "臺北市"
      ⟨[], [("臺北市", ⟨"臺北市", "晴", "t", "晴"⟩, 100)]⟩ ⟨"臺北市", "晴", "t", "晴"⟩ 100
      "" 0 0 0 "").1 (by decide) (by decide)⟩

/-- C8: when the fetch is actually consulted (no fresh cache entry for the
region) and fails — malformed payload, transport error or any other
processing error — the lookup leaves the whole module state (in particular
the cache) unchanged and still returns a normal-shaped `WeatherResponse`
whose display text carries the explanatory message; no failure escapes. -/
theorem weather_fetch_failure_frame (keywords : List (String × String)) (now : Nat)
    (city e : String) (s : WeatherState)
    (hstale : ∀ r ts, s.cache.lookup city = some (r, ts) → 600 ≤ now - ts) :
    getOrFetchWeather keywords .malformed now city s =
      ({ city_name := city, weather_description := "N/A",
         display_text := "無法取得天氣資料：資料結構異常或無有效預報",
         current_weather_type := "晴" }, s, true) ∧
    getOrFetchWeather keywords (.requestError e) now city s =
      ({ city_name := city, weather_description := "N/A",
         display_text := "無法取得天氣資料：網路或API錯誤 (" ++ e ++ ")",
         current_weather_type := "晴" }, s, true) ∧
    getOrFetchWeather keywords (.processError e) now city s =
      ({ city_name := city, weather_description := "N/A",
         display_text := "處理天氣資料時發生錯誤: " ++ e,
         current_weather_type := "晴" }, s, true) := by
  have key : ∀ fw : FetchOutcome, getOrFetchWeather keywords fw now city s =
      fetchWeatherAndCache keywords fw now city s := by
    intro fw
    cases hlook : s.cache.lookup city with
    | none => simp only [getOrFetchWeather, hlook]
    | some p =>
      obtain ⟨r, ts⟩ := p
      have hts := hstale r ts hlook
      simp only [getOrFetchWeather, hlook]
      rw [if_neg (by omega)]
  exact ⟨key _, key _, key _⟩

theorem weather_fetch_failure_frame_witness :
    getOrFetchWeather [] .malformed 0 "臺北市" ⟨[], []⟩ =
      ({ city_name := "臺北市", weather_description := "N/A",
         display_text := "無法取得天氣資料：資料結構異常或無有效預報",
         current_weather_type := "晴" }, ⟨[], []⟩, true) ∧
    getOrFetchWeather [] (.requestError "timeout") 0 "臺北市" ⟨[], []⟩ =
      ({ city_name := "臺北市", weather_description := "N/A",
         display_text := "無法取得天氣資料：網路或API錯誤 (" ++ "timeout" ++ ")",
         current_weather_type := "晴" }, ⟨[], []⟩, true) ∧
    getOrFetchWeather [] (.processError "timeout") 0 "臺北市" ⟨[], []⟩ =
      ({ city_name := "臺北市", weather_description := "N/A",
         display_text := "處理天氣資料時發生錯誤: " ++ "timeout",
         current_weather_type := "晴" }, ⟨[], []⟩, true) :=
  weather_fetch_failure_frame [] 0 "臺北市" "timeout" ⟨[], []⟩ (fun _ _ h => nomatch h)

/-- C9: an input containing a digit character is answered with the synthetic
invalid-input response immediately: the state is untouched and neither the
location-list fetch, the corrector, nor the upstream weather fetch is
invoked. -/
theorem digit_input_short_circuit (aliases : String → Option String)
    (ratio : String → String → Nat) (keywords : List (String × String))
    (locFetch : Option (List String)) (fetchW : FetchOutcome) (now : Nat)
    (city_input : String) (s : WeatherState)
    (h : city_input.toList.any Char.isDigit = true) :
    getCurrentWeather aliases ratio keywords locFetch fetchW now city_input s =
      ({ city_name := city_input, weather_description := "無效輸入",
         display_text := "縣市名稱不能包含數字！", current_weather_type := "晴" },
        s, ⟨false, false, false⟩) := by
  simp only [getCurrentWeather, h, if_true]

theorem digit_input_short_circuit_witness :
    ("台北101".toList.any Char.isDigit = true) ∧
    getCurrentWeather manualCorrectionLookup (fun _ _ => 0) [] none FetchOutcome.malformed 0
        "台北101" ⟨[], []⟩ =
      (⟨"台北101", "無效輸入", "縣市名稱不能包含數字！", "晴"⟩, ⟨[], []⟩,
        ⟨false, false, false⟩) :=
  ⟨by decide,
    digit_input_short_circuit manualCorrectionLookup (fun _ _ => 0) [] none
      FetchOutcome.malformed 0 "台北101" ⟨[], []⟩ (by decide)⟩
